import Mathlib

/-
Verification development for the bzz CRUD-over-nested-resources dispatcher.

This file gives a shallow embedding, in Lean 4, of the parts of the bzz
repository that the checked specification talks about:

  * src/bzz/providers/sqlalchemy_provider.py
      (SQLAlchemyProvider: get_list, get_instance, delete_instance,
       update_instance, fill_property, dump_instance)
  * src/bzz/rest_handler.py
      (ModelRestHandler: get, put, delete, list, get_parent_model,
       get_request_data)
  * src/bzz/auth.py
      (authenticated decorator, AuthHandler._is_authenticated,
       AuthHandler._renew_authentication, AuthHandler._set_unauthorized,
       AuthSigninHandler.post)

Python's dynamically typed runtime values are modelled by the inductive
type `PyVal`; Python dictionaries and object attribute tables are modelled
as association lists with first-key-wins lookup, matching dict insertion
semantics.  Coroutines are pure functions (every provider/handler step in
the source is a linear chain of suspensions with no interleaving, spec §5).
Raised-and-uncaught Python exceptions and tornado's request-terminating
`Finish` are modelled with `Except Halt`.  JSON wire encoding is excluded
by the spec (§1), so "writing" a value keeps the structured `PyVal`.
-/

namespace Bzz

/-- Model of a Python runtime value, as used by the bzz code paths under
verification: `None`, booleans, strings, ints, dicts, lists/tuples, and
ORM instances (a class name together with an attribute table). -/
inductive PyVal : Type where
  | none : PyVal
  | bool : Bool → PyVal
  | str : String → PyVal
  | int : Int → PyVal
  | dict : List (String × PyVal) → PyVal
  | tuple : List PyVal → PyVal
  | inst : String → List (String × PyVal) → PyVal

/-- Python `dict.get` / attribute lookup on an association list:
first binding of the key wins. -/
def dictGet {α : Type} : List (String × α) → String → Option α
  | [], _ => Option.none
  | (k, v) :: rest, key => if k = key then some v else dictGet rest key

/-- Python `d[k] = v` on an association list: replace the first binding of
`k` in place, or append a new binding (dict insertion order). -/
def setKey {α : Type} : List (String × α) → String → α → List (String × α)
  | [], k, v => [(k, v)]
  | (k1, v1) :: rest, k, v =>
      if k1 = k then (k, v) :: rest else (k1, v1) :: setKey rest k v

/-- Python `dict.update(kvs)`: set every binding of `kvs` in order. -/
def dictUpdate {α : Type} (d : List (String × α)) (kvs : List (String × α)) :
    List (String × α) :=
  kvs.foldl (fun acc kv => setKey acc kv.fst kv.snd) d

/-- Remove the first binding of a key (models `session.delete(instance)`
for a row previously fetched by that key). -/
def removeKey {α : Type} : List (String × α) → String → List (String × α)
  | [], _ => []
  | (k1, v1) :: rest, k => if k1 = k then rest else (k1, v1) :: removeKey rest k

/-- Python `str.split(sep)` for a single-character separator, on the
character list of the string. `split` always yields at least one piece. -/
def splitChar (c : Char) : List Char → List (List Char)
  | [] => [[]]
  | x :: xs =>
      let r := splitChar c xs
      if x = c then [] :: r
      else
        match r with
        | y :: ys => (x :: y) :: ys
        | [] => [[x]]

/-- Python `s.split(c)` returning strings. -/
def pySplit (c : Char) (s : String) : List String :=
  (splitChar c s.data).map (fun l => ⟨l⟩)

/-- Python `s.lstrip('/')`. -/
def lstripSlash (s : String) : String :=
  ⟨s.data.dropWhile (fun c => c = '/')⟩

/-- Python `s.endswith('[]')`. -/
def endsWithBrackets (s : String) : Bool :=
  match s.data.reverse with
  | ']' :: '[' :: _ => true
  | _ => false

/-- Python `s.replace('[]', '')`: drop every (left-to-right,
non-overlapping) occurrence of the two-character substring `[]`. -/
def stripBrackets (s : String) : String :=
  ⟨go s.data⟩
where
  go : List Char → List Char
    | '[' :: ']' :: rest => go rest
    | ch :: rest => ch :: go rest
    | [] => []

/-- Python truthiness (`if value:`) for the modelled values. -/
def pyTruthy : PyVal → Bool
  | PyVal.none => false
  | PyVal.bool b => b
  | PyVal.str s => s ≠ ""
  | PyVal.int n => n ≠ 0
  | PyVal.dict l => !l.isEmpty
  | PyVal.tuple l => !l.isEmpty
  | PyVal.inst _ _ => true

/-- Python `str(value)` as used by `fill_property` when recording a changed
field. The precise rendering of composite values (`repr`-style text) is
interpreter behaviour outside this repository; scalars are rendered
faithfully and composites get a placeholder rendering. -/
def pyStr : PyVal → String
  | PyVal.none => "None"
  | PyVal.bool true => "True"
  | PyVal.bool false => "False"
  | PyVal.str s => s
  | PyVal.int n => toString n
  | PyVal.dict _ => "<dict>"
  | PyVal.tuple _ => "<tuple>"
  | PyVal.inst c _ => "<" ++ c ++ ">"

/-- Python `==` on modelled values (structural on scalars and containers;
column values compared by SQL equality in filters are scalars). -/
def pyBeq : PyVal → PyVal → Bool
  | PyVal.none, PyVal.none => true
  | PyVal.bool a, PyVal.bool b => a == b
  | PyVal.str a, PyVal.str b => a == b
  | PyVal.int a, PyVal.int b => a == b
  | _, _ => false

/-- One `queryset.filter(field == value)` step of
`SQLAlchemyProvider.get_list`: keep the rows whose column `k` equals `v`. -/
def rowMatches (row : PyVal) (k : String) (v : PyVal) : Bool :=
  match row with
  | PyVal.inst _ attrs =>
      match dictGet attrs k with
      | some x => pyBeq x v
      | Option.none => false
  | _ => false

/-- The filter loop of `SQLAlchemyProvider.get_list` (lines 238-242):
apply every `(field, value)` filter, ANDed, to the row collection. -/
def applyFilters (rows : List PyVal) (filters : List (String × PyVal)) :
    List PyVal :=
  filters.foldl (fun qs kv => qs.filter (fun row => rowMatches row kv.fst kv.snd)) rows

/-- `SQLAlchemyProvider.get_list` (sqlalchemy_provider.py lines 229-259).
`count = queryset.count()`; `pages = int(math.ceil(count / float(per_page)))`
is exact ceiling division `(count + per_page - 1) / per_page` for positive
`per_page` (Python ints are unbounded; the float detour is exact in the
53-bit range); `queryset[start:stop]` is drop-then-take in collection
order.  Python's `page -= 1` on `page = 0` would index from the end; the
claims under verification fix `page ≥ 1`, where `Nat` subtraction agrees
with the source. -/
def get_list (rows : List PyVal) (page per_page : Nat)
    (filters : List (String × PyVal)) : List PyVal :=
  let queryset := applyFilters rows filters
  let count := queryset.length
  let pages := (count + per_page - 1) / per_page
  if pages = 0 then []
  else
    let pageClamped := if page > pages then pages else page
    let page0 := pageClamped - 1
    let start := per_page * page0
    (queryset.drop start).take per_page

/-- C1: for every collection with total item count `count`, every
`per_page > 0` and requested `page ≥ 1`, `get_list` computes
`pages = ceil(count / per_page)` (characterised by the two bounds of the
first conjunct); if `pages = 0` it returns the empty list; if
`page > pages` it returns the same items as requesting the last page
`pages`; otherwise it returns the slice of items with indices
`[per_page*(page-1), per_page*(page-1)+per_page)` in collection order.
`get_list` is a total function, so no out-of-range page signals an
error. -/
theorem get_list_paginates (rows : List PyVal) (filters : List (String × PyVal))
    (page per_page : Nat) (hpp : 0 < per_page) (hpage : 1 ≤ page) :
    ((applyFilters rows filters).length ≤
        per_page * (((applyFilters rows filters).length + per_page - 1) / per_page) ∧
      per_page * (((applyFilters rows filters).length + per_page - 1) / per_page) <
        (applyFilters rows filters).length + per_page) ∧
    ((((applyFilters rows filters).length + per_page - 1) / per_page) = 0 →
      get_list rows page per_page filters = []) ∧
    ((((applyFilters rows filters).length + per_page - 1) / per_page) < page →
      get_list rows page per_page filters =
        get_list rows (((applyFilters rows filters).length + per_page - 1) / per_page)
          per_page filters) ∧
    (page ≤ (((applyFilters rows filters).length + per_page - 1) / per_page) →
      get_list rows page per_page filters =
        ((applyFilters rows filters).drop (per_page * (page - 1))).take per_page) := by
  have hdm := Nat.div_add_mod ((applyFilters rows filters).length + per_page - 1) per_page
  have hml := Nat.mod_lt ((applyFilters rows filters).length + per_page - 1) hpp
  refine ⟨⟨by omega, by omega⟩, ?_, ?_, ?_⟩
  · intro h0
    simp only [get_list]
    rw [if_pos h0]
  · intro hlt
    by_cases h0 : (((applyFilters rows filters).length + per_page - 1) / per_page) = 0
    · simp only [get_list]
      rw [if_pos h0, if_pos h0]
    · simp only [get_list]
      rw [if_neg h0, if_neg h0, if_pos hlt, if_neg (by omega)]
  · intro hle
    have h0 : ¬ (((applyFilters rows filters).length + per_page - 1) / per_page) = 0 := by
      omega
    simp only [get_list]
    rw [if_neg h0, if_neg (by omega)]

/-- Concrete five-element collection used to witness C1. -/
def c1rows : List PyVal :=
  [PyVal.int 10, PyVal.int 11, PyVal.int 12, PyVal.int 13, PyVal.int 14]

/-- Witness for C1: the pagination theorem applied at a concrete collection
of five items, `per_page = 2`, out-of-range `page = 7`. -/
theorem get_list_paginates_witness :
    0 < 2 ∧ 1 ≤ 7 ∧
    (((applyFilters c1rows []).length ≤
        2 * (((applyFilters c1rows []).length + 2 - 1) / 2) ∧
      2 * (((applyFilters c1rows []).length + 2 - 1) / 2) <
        (applyFilters c1rows []).length + 2) ∧
    ((((applyFilters c1rows []).length + 2 - 1) / 2) = 0 →
      get_list c1rows 7 2 [] = []) ∧
    ((((applyFilters c1rows []).length + 2 - 1) / 2) < 7 →
      get_list c1rows 7 2 [] =
        get_list c1rows (((applyFilters c1rows []).length + 2 - 1) / 2) 2 []) ∧
    (7 ≤ (((applyFilters c1rows []).length + 2 - 1) / 2) →
      get_list c1rows 7 2 [] =
        ((applyFilters c1rows []).drop (2 * (7 - 1))).take 2)) :=
  ⟨by decide, by decide, get_list_paginates c1rows [] 7 2 (by decide) (by decide)⟩

/-- Association-list lemma: after `d[k] = v`, looking up `k` yields `v`. -/
theorem dictGet_setKey_same {α : Type} (d : List (String × α)) (k : String) (v : α) :
    dictGet (setKey d k v) k = some v := by
  induction d with
  | nil => simp [setKey, dictGet]
  | cons hd tl ih =>
      obtain ⟨k1, v1⟩ := hd
      by_cases h : k1 = k
      · subst h; simp [setKey, dictGet]
      · simp [setKey, dictGet, h, ih]

/-- Association-list lemma: `d[k] = v` leaves every other key unchanged. -/
theorem dictGet_setKey_other {α : Type} (d : List (String × α)) (k key : String)
    (v : α) (h : key ≠ k) : dictGet (setKey d k v) key = dictGet d key := by
  have hne : ¬ k = key := fun hh => h hh.symm
  induction d with
  | nil => simp [setKey, dictGet, hne]
  | cons hd tl ih =>
      obtain ⟨k1, v1⟩ := hd
      by_cases h1 : k1 = k
      · subst h1
        simp [setKey, dictGet, hne]
      · by_cases h2 : k1 = key
        · subst h2; simp [setKey, dictGet, h1]
        · simp [setKey, dictGet, h1, h2, ih]

/-- A signed authentication token. Modelled from the spec: `utils.Jwt`
(bzz/utils.py is not under src/) produces a signed, tamper-evident carrier
of a claim set (§4.7); modelled as the claim set paired with the signing
key it was sealed with. -/
structure Token where
  payload : List (String × PyVal)
  sig : String

/-- The application-level authentication options installed by
`AuthHive.configure` (auth.py lines 47-66). -/
structure AuthOptions where
  secret : String
  expiration : Int
  cookieName : String

/-- The observable state of one request/response cycle: response status,
whether `finish()` ran, response headers, values written to the response
body, cookies, emitted `bzz.signals` notifications, and the provider's
backing store (`application.db`, keyed by instance id). -/
structure HandlerState where
  status : Nat := 200
  finished : Bool := false
  headers : List (String × String) := []
  written : List PyVal := []
  cookies : List (String × Token) := []
  signals : List String := []
  db : List (String × PyVal) := []

/-- A request that terminates abnormally: `tornado.web.Finish` (which ends
the request with the current state) or an uncaught Python exception. -/
inductive Halt : Type where
  | finish : HandlerState → Halt
  | error : String → Halt

/-- `handler.get_cookie(name)`. -/
def getCookie (s : HandlerState) (name : String) : Option Token :=
  dictGet s.cookies name

/-- `handler.set_cookie(name, token)`. -/
def setCookie (s : HandlerState) (name : String) (tok : Token) : HandlerState :=
  {s with cookies := setKey s.cookies name tok}

/-- Modelled from the spec: `utils.Jwt.encode` (bzz/utils.py is not under
src/): seal a claim set with the configured secret key (§4.7). -/
def Jwt.encode (secret : String) (payload : List (String × PyVal)) : Token :=
  ⟨payload, secret⟩

/-- Modelled from the spec: `utils.Jwt.try_to_decode` (bzz/utils.py is not
under src/). Per §4.7 a token is valid iff its signature verifies and
`now < expires_at`; the result is `(valid, claims)`, with `(False, empty)`
for an absent, tampered, expired or malformed token. -/
def Jwt.tryToDecode (secret : String) (now : Int) :
    Option Token → Bool × List (String × PyVal)
  | Option.none => (false, [])
  | some t =>
      if t.sig = secret then
        match dictGet t.payload "exp" with
        | some (PyVal.int e) => if now < e then (true, t.payload) else (false, [])
        | _ => (false, [])
      else (false, [])

/-- `AuthHandler._set_unauthorized` (auth.py lines 108-111): set the 401
status and raise `tornado.web.Finish`, ending the request. -/
def setUnauthorized (s : HandlerState) : Except Halt HandlerState :=
  Except.error (Halt.finish {s with status := 401})

/-- `AuthHandler._renew_authentication` (auth.py lines 119-130): update the
decoded payload with `iat = now` and `exp = now + expiration`, encode it
with the configured Jwt, and store the fresh token in the configured
cookie.  The source reads `datetime.utcnow()`; the request's clock reading
is the `now` parameter. -/
def renewAuthentication (opts : AuthOptions) (now : Int) (s : HandlerState)
    (payload : List (String × PyVal)) : HandlerState :=
  let payload2 := dictUpdate payload
    [("iat", PyVal.int now), ("exp", PyVal.int (now + opts.expiration))]
  setCookie s opts.cookieName (Jwt.encode opts.secret payload2)

/-- The `authenticated` decorator (auth.py lines 25-42): decode the cookie
token; if valid, renew it and run the guarded method on the updated state;
otherwise `_set_unauthorized` raises `Finish`, so the `return method(...)`
line is never reached (modelled by the short-circuiting bind). -/
def authenticatedWrap (opts : AuthOptions) (now : Int)
    (method : HandlerState → Except Halt HandlerState) (s : HandlerState) :
    Except Halt HandlerState :=
  let ap := Jwt.tryToDecode opts.secret now (getCookie s opts.cookieName)
  if ap.fst then
    method (renewAuthentication opts now s ap.snd)
  else do
    let s2 ← setUnauthorized s
    method s2

/-- Python subscript `value[k]` on a dict value; an absent key is a
`KeyError` at the call site. -/
def pyGetItem : PyVal → String → Option PyVal
  | PyVal.dict l, k => dictGet l k
  | _, _ => Option.none

/-- `AuthSigninHandler.post` (auth.py lines 147-182).  The request body has
already been parsed (`utils.loads` is JSON mechanics, excluded by §1) into
the `postData` mapping; an identity provider is its `authenticate`
function, an external collaborator returning a user record or `None`
(§1, §6). -/
def authSigninPost (providers : List (String × (PyVal → PyVal)))
    (opts : AuthOptions) (now : Int) (postData : List (String × PyVal))
    (s : HandlerState) : Except Halt HandlerState :=
  let access_token := (dictGet postData "access_token").getD PyVal.none
  let provider_name := (dictGet postData "provider").getD PyVal.none
  let provider :=
    match provider_name with
    | PyVal.str nm => dictGet providers nm
    | _ => Option.none
  match provider with
  | Option.none => setUnauthorized s
  | some authenticate =>
      let user_data := authenticate access_token
      if pyTruthy user_data then
        match pyGetItem user_data "id" with
        | some uid =>
            let payload := [("sub", uid), ("data", user_data),
              ("iss", provider_name), ("token", access_token),
              ("iat", PyVal.int now), ("exp", PyVal.int (now + opts.expiration))]
            let auth_token := Jwt.encode opts.secret payload
            let s2 := {s with signals := s.signals ++ ["authorized_user"]}
            let s3 := setCookie s2 opts.cookieName auth_token
            Except.ok {s3 with
              written := s3.written ++ [PyVal.dict [("authenticated", PyVal.bool true)]]}
        | Option.none => Except.error (Halt.error "KeyError")
      else
        setUnauthorized {s with signals := s.signals ++ ["unauthorized_user"]}

/-- C5: on every request guarded by the `authenticated` decorator, a valid
presented token with claim set P is renewed: the state handed to the
guarded method (whatever the method is) carries, in the configured cookie,
a freshly encoded token whose claims equal P except `iat = now` and
`exp = now + configured_ttl`; every other claim is preserved unchanged. -/
theorem authenticated_renews_claims (opts : AuthOptions) (now e : Int)
    (m : HandlerState → Except Halt HandlerState) (s : HandlerState) (tok : Token)
    (hcookie : getCookie s opts.cookieName = some tok)
    (hsig : tok.sig = opts.secret)
    (hexp : dictGet tok.payload "exp" = some (PyVal.int e))
    (hnow : now < e) :
    ∃ claims2,
      authenticatedWrap opts now m s =
        m (setCookie s opts.cookieName (Jwt.encode opts.secret claims2)) ∧
      dictGet claims2 "iat" = some (PyVal.int now) ∧
      dictGet claims2 "exp" = some (PyVal.int (now + opts.expiration)) ∧
      ∀ k, k ≠ "iat" → k ≠ "exp" → dictGet claims2 k = dictGet tok.payload k := by
  refine ⟨dictUpdate tok.payload
    [("iat", PyVal.int now), ("exp", PyVal.int (now + opts.expiration))],
    ?_, ?_, ?_, ?_⟩
  · simp [authenticatedWrap, hcookie, Jwt.tryToDecode, hsig, hexp, hnow,
      renewAuthentication]
  · rw [dictUpdate]
    simp only [List.foldl_cons, List.foldl_nil]
    rw [dictGet_setKey_other _ _ _ _ (by decide), dictGet_setKey_same]
  · rw [dictUpdate]
    simp only [List.foldl_cons, List.foldl_nil]
    rw [dictGet_setKey_same]
  · intro k hk1 hk2
    rw [dictUpdate]
    simp only [List.foldl_cons, List.foldl_nil]
    rw [dictGet_setKey_other _ _ _ _ hk2, dictGet_setKey_other _ _ _ _ hk1]

/-- Claim set of the valid token presented in the C5 witness. -/
def c5payload : List (String × PyVal) :=
  [("sub", PyVal.str "user-1"), ("iss", PyVal.str "google"),
   ("data", PyVal.dict [("id", PyVal.str "user-1")]),
   ("token", PyVal.str "ext-token"), ("iat", PyVal.int 0), ("exp", PyVal.int 100)]

/-- Auth options used by the C5/C6 witnesses. -/
def c5opts : AuthOptions := ⟨"secret", 1200, "AUTH_TOKEN"⟩

/-- Request state holding a valid token, used by the C5 witness. -/
def c5state : HandlerState :=
  { cookies := [("AUTH_TOKEN", ⟨c5payload, "secret"⟩)] }

/-- Witness for C5: renewal at a concrete valid token, `now = 50`, with the
guarded method being the identity request step. -/
theorem authenticated_renews_claims_witness :
    getCookie c5state c5opts.cookieName = some ⟨c5payload, "secret"⟩ ∧
    (⟨c5payload, "secret"⟩ : Token).sig = c5opts.secret ∧
    dictGet (Token.payload ⟨c5payload, "secret"⟩) "exp" = some (PyVal.int 100) ∧
    ((50 : Int) < 100) ∧
    (∃ claims2,
      authenticatedWrap c5opts 50 Except.ok c5state =
        Except.ok (setCookie c5state c5opts.cookieName (Jwt.encode c5opts.secret claims2)) ∧
      dictGet claims2 "iat" = some (PyVal.int 50) ∧
      dictGet claims2 "exp" = some (PyVal.int (50 + c5opts.expiration)) ∧
      ∀ k, k ≠ "iat" → k ≠ "exp" →
        dictGet claims2 k = dictGet (Token.payload ⟨c5payload, "secret"⟩) k) :=
  ⟨rfl, rfl, rfl, by decide,
    authenticated_renews_claims c5opts 50 100 Except.ok c5state
      ⟨c5payload, "secret"⟩ rfl rfl rfl (by decide)⟩

/-- C6: on every request guarded by the `authenticated` decorator, if the
presented token is absent or invalid (the Jwt decoder reports it not
authenticated), the request terminates with status 401 via
`tornado.web.Finish` and the final state is independent of the guarded
method: the guarded handler body contributes no effect at all. -/
theorem authenticated_rejects_unauthorized (opts : AuthOptions) (now : Int)
    (m : HandlerState → Except Halt HandlerState) (s : HandlerState)
    (h : (Jwt.tryToDecode opts.secret now (getCookie s opts.cookieName)).fst = false) :
    authenticatedWrap opts now m s = Except.error (Halt.finish {s with status := 401}) := by
  simp only [authenticatedWrap, h, Bool.false_eq_true, if_false, setUnauthorized]
  rfl

/-- Request state with no cookie at all, used by the C6 witness. -/
def c6state : HandlerState := {}

/-- A guarded method with a visible side effect, used by the C6 witness:
the rejection theorem shows this write never happens. -/
def c6method (s : HandlerState) : Except Halt HandlerState :=
  Except.ok {s with written := s.written ++ [PyVal.str "side-effect"]}

/-- Witness for C6: an absent token is rejected with 401 and the guarded
method's write is absent from the final state. -/
theorem authenticated_rejects_unauthorized_witness :
    (Jwt.tryToDecode c5opts.secret 0 (getCookie c6state c5opts.cookieName)).fst = false ∧
    authenticatedWrap c5opts 0 c6method c6state =
      Except.error (Halt.finish {c6state with status := 401}) :=
  ⟨rfl, authenticated_rejects_unauthorized c5opts 0 c6method c6state rfl⟩

/-- C7: for a sign-in request routed to a known identity provider, if the
provider reports `absent` (returns `None`) for the presented access token,
`AuthSigninHandler.post` emits the unauthorized signal and terminates with
status 401, leaving the cookie jar untouched — no token is created or
stored; and only when the provider returns a (truthy) user record does the
handler encode a token and store it in the response cookie. -/
theorem signin_absent_rejected (providers : List (String × (PyVal → PyVal)))
    (opts : AuthOptions) (now : Int) (postData : List (String × PyVal))
    (s : HandlerState) (nm : String) (authf : PyVal → PyVal)
    (hpn : dictGet postData "provider" = some (PyVal.str nm))
    (hp : dictGet providers nm = some authf) :
    (authf ((dictGet postData "access_token").getD PyVal.none) = PyVal.none →
      authSigninPost providers opts now postData s =
        Except.error (Halt.finish {s with status := 401, signals := s.signals ++ ["unauthorized_user"]})) ∧
    (∀ ud uid, authf ((dictGet postData "access_token").getD PyVal.none) = ud →
      pyTruthy ud = true → pyGetItem ud "id" = some uid →
      authSigninPost providers opts now postData s =
        Except.ok {s with cookies := setKey s.cookies opts.cookieName (Jwt.encode opts.secret [("sub", uid), ("data", ud), ("iss", PyVal.str nm), ("token", (dictGet postData "access_token").getD PyVal.none), ("iat", PyVal.int now), ("exp", PyVal.int (now + opts.expiration))]), signals := s.signals ++ ["authorized_user"], written := s.written ++ [PyVal.dict [("authenticated", PyVal.bool true)]]}) := by
  constructor
  · intro habs
    simp [authSigninPost, hpn, hp, habs, pyTruthy, setUnauthorized]
  · intro ud uid hud htr hid
    simp [authSigninPost, hpn, hp, hud, htr, hid, setCookie]

/-- Identity-provider table for the C7 witness: provider "google" accepts
exactly the access token `"good"`. -/
def c7providers : List (String × (PyVal → PyVal)) :=
  [("google", fun t =>
    if pyBeq t (PyVal.str "good") then
      PyVal.dict [("id", PyVal.str "u9"), ("name", PyVal.str "Ana")]
    else PyVal.none)]

/-- Sign-in body presenting an access token the provider rejects. -/
def c7postData : List (String × PyVal) :=
  [("access_token", PyVal.str "bad"), ("provider", PyVal.str "google")]

/-- Witness for C7: a provider answering `absent` at a concrete sign-in
request yields the 401 outcome with no token stored. -/
theorem signin_absent_rejected_witness :
    dictGet c7postData "provider" = some (PyVal.str "google") ∧
    dictGet c7providers "google" =
      some (fun t =>
        if pyBeq t (PyVal.str "good") then
          PyVal.dict [("id", PyVal.str "u9"), ("name", PyVal.str "Ana")]
        else PyVal.none) ∧
    ((fun t =>
        if pyBeq t (PyVal.str "good") then
          PyVal.dict [("id", PyVal.str "u9"), ("name", PyVal.str "Ana")]
        else PyVal.none)
      ((dictGet c7postData "access_token").getD PyVal.none) = PyVal.none →
      authSigninPost c7providers c5opts 0 c7postData c6state =
        Except.error (Halt.finish {c6state with status := 401, signals := c6state.signals ++ ["unauthorized_user"]})) :=
  ⟨rfl, rfl,
    (signin_absent_rejected c7providers c5opts 0 c7postData c6state "google" _ rfl rfl).1⟩

mutual
/-- A serialized output map, as produced by `dump_instance`: Python dict
from field name to serialized entry. -/
inductive DOut : Type where
  | mk : List (String × DEntry) → DOut

/-- One entry of a serialized output map: a copied scalar value or the
nested map of a single-valued reference. -/
inductive DEntry : Type where
  | scalar : Int → DEntry
  | nested : DOut → DEntry
end

/-- The entry list of a serialized output map. -/
def DOut.entries : DOut → List (String × DEntry)
  | DOut.mk l => l

mutual
/-- An ORM instance as seen by `dump_instance`: an optional custom
`to_dict` serializer, and the model's field table — the `children` nodes of
`self.tree.find_by_class(instance.__class__)` joined with the instance's
attribute values (`getattr(instance, node_name)`). -/
inductive DInst : Type where
  | mk : Option DOut → List (String × DField) → DInst

/-- One field of an instance: a scalar column (`node.model_type is None`),
a single-valued reference (`model_type` present, `is_multiple` false,
holding the referenced instance or `None`), or a multi-valued reference
(`is_multiple` true, holding the related collection). -/
inductive DField : Type where
  | scalar : Int → DField
  | ref : Option DInst → DField
  | refList : List DInst → DField
end

/-- The custom `to_dict` serializer of an instance, if defined. -/
def DInst.toDict : DInst → Option DOut
  | DInst.mk t _ => t

/-- The field table of an instance. -/
def DInst.fields : DInst → List (String × DField)
  | DInst.mk _ f => f

mutual
/-- `SQLAlchemyProvider.dump_instance` (sqlalchemy_provider.py lines
269-292).  `depth > 1` raises `MaxDepthError` (the `Except.error`); a
`None` instance serializes to `{}`; an instance with a custom `to_dict`
defers to it unconditionally; otherwise each child node is serialized by
`dump_children`. -/
def dump_instance : Option DInst → Nat → Except Unit DOut
  | inst, depth =>
    if depth > 1 then Except.error ()
    else
      match inst with
      | Option.none => Except.ok (DOut.mk [])
      | some (DInst.mk toDict fields) =>
          match toDict with
          | some d => Except.ok d
          | Option.none => Except.ok (DOut.mk (dump_children fields depth))
termination_by inst _ => sizeOf inst

/-- The field loop of `dump_instance` (lines 282-291): scalar nodes are
copied; single-valued references are serialized at `depth + 1`, with
`MaxDepthError` caught and the field silently dropped; multi-valued
references are skipped entirely. -/
def dump_children : List (String × DField) → Nat → List (String × DEntry)
  | [], _ => []
  | (name, DField.scalar v) :: rest, depth =>
      (name, DEntry.scalar v) :: dump_children rest depth
  | (name, DField.ref o) :: rest, depth =>
      (match dump_instance o (depth + 1) with
       | Except.ok out => (name, DEntry.nested out) :: dump_children rest depth
       | Except.error _ => dump_children rest depth)
  | (_, DField.refList _) :: rest, depth => dump_children rest depth
termination_by fs _ => sizeOf fs
end

/-- Entries kept by `dump_children` at depth 1: only scalar nodes survive
(the recursive call for every reference raises at depth 2 and is caught,
and reference lists are skipped). -/
def scalarEntries : List (String × DField) → List (String × DEntry)
  | [] => []
  | (n, DField.scalar v) :: rest => (n, DEntry.scalar v) :: scalarEntries rest
  | (_, DField.ref _) :: rest => scalarEntries rest
  | (_, DField.refList _) :: rest => scalarEntries rest

/-- The value `dump_instance` produces at depth 1: `{}` for `None`, the
custom `to_dict` if defined, else the scalar fields only. -/
def dump_at_depth1 : Option DInst → DOut
  | Option.none => DOut.mk []
  | some (DInst.mk (some d) _) => d
  | some (DInst.mk Option.none fields) => DOut.mk (scalarEntries fields)

/-- Entries kept by `dump_children` at depth 0: scalars are copied,
single-valued references carry their depth-1 serialization, reference
lists are skipped. -/
def rootEntries : List (String × DField) → List (String × DEntry)
  | [] => []
  | (n, DField.scalar v) :: rest => (n, DEntry.scalar v) :: rootEntries rest
  | (n, DField.ref o) :: rest => (n, DEntry.nested (dump_at_depth1 o)) :: rootEntries rest
  | (_, DField.refList _) :: rest => rootEntries rest

/-- The claim's "relation graph has depth ≥ 3", witnessed by a three-hop
chain of single-valued references out of the instance. -/
def hasDepth3 (i : DInst) : Prop :=
  ∃ n1 j1 n2 j2 n3 j3,
    (n1, DField.ref (some j1)) ∈ i.fields ∧
    (n2, DField.ref (some j2)) ∈ j1.fields ∧
    (n3, DField.ref (some j3)) ∈ j2.fields

/-- Past the ceiling: at any depth above 1, `dump_instance` raises
`MaxDepthError` before looking at the instance. -/
theorem dump_instance_overflow (o : Option DInst) (d : Nat) (h : 1 < d) :
    dump_instance o d = Except.error () := by
  rw [dump_instance.eq_def]
  simp [h]

/-- At depth 1 the field loop keeps exactly the scalar entries. -/
theorem dump_children_one (fs : List (String × DField)) :
    dump_children fs 1 = scalarEntries fs := by
  induction fs with
  | nil => simp [dump_children, scalarEntries]
  | cons hd tl ih =>
      obtain ⟨n, f⟩ := hd
      cases f with
      | scalar v => simp [dump_children, scalarEntries, ih]
      | ref o =>
          simp [dump_children, scalarEntries, ih, dump_instance_overflow o 2 (by omega)]
      | refList l => simp [dump_children, scalarEntries, ih]

/-- Depth-1 serialization never raises and equals `dump_at_depth1`. -/
theorem dump_instance_one (o : Option DInst) :
    dump_instance o 1 = Except.ok (dump_at_depth1 o) := by
  match o with
  | Option.none => simp [dump_instance, dump_at_depth1]
  | some (DInst.mk (some d) fs) => simp [dump_instance, dump_at_depth1]
  | some (DInst.mk Option.none fs) =>
      simp [dump_instance, dump_at_depth1, dump_children_one]

/-- At depth 0 the field loop keeps exactly the root entries. -/
theorem dump_children_zero (fs : List (String × DField)) :
    dump_children fs 0 = rootEntries fs := by
  induction fs with
  | nil => simp [dump_children, rootEntries]
  | cons hd tl ih =>
      obtain ⟨n, f⟩ := hd
      cases f with
      | scalar v => simp [dump_children, rootEntries, ih]
      | ref o => simp [dump_children, rootEntries, ih, dump_instance_one o]
      | refList l => simp [dump_children, rootEntries, ih]

/-- Depth-0 serialization of a descriptor-driven instance never raises and
equals the root characterization. -/
theorem dump_instance_zero (i : DInst) (h : i.toDict = Option.none) :
    dump_instance (some i) 0 = Except.ok (DOut.mk (rootEntries i.fields)) := by
  match i with
  | DInst.mk t fs =>
      simp only [DInst.toDict] at h
      subst h
      simp [dump_instance, DInst.fields, dump_children_zero]

/-- Depth-0 serialization never raises, custom serializer or not. -/
theorem dump_instance_zero_total (i : DInst) :
    ∃ out, dump_instance (some i) 0 = Except.ok out := by
  match i with
  | DInst.mk (some d) fs => exact ⟨d, by simp [dump_instance]⟩
  | DInst.mk Option.none fs =>
      exact ⟨DOut.mk (dump_children fs 0), by simp [dump_instance]⟩

/-- Every scalar field appears among the root entries. -/
theorem scalar_mem_rootEntries {fs : List (String × DField)} {n : String} {v : Int}
    (h : (n, DField.scalar v) ∈ fs) : (n, DEntry.scalar v) ∈ rootEntries fs := by
  induction fs with
  | nil => cases h
  | cons hd tl ih =>
      obtain ⟨m, f⟩ := hd
      rcases List.mem_cons.mp h with h1 | h2
      · cases h1; simp [rootEntries]
      · cases f with
        | scalar w =>
            simp only [rootEntries]
            exact List.mem_cons_of_mem _ (ih h2)
        | ref o =>
            simp only [rootEntries]
            exact List.mem_cons_of_mem _ (ih h2)
        | refList l =>
            simp only [rootEntries]
            exact ih h2

/-- Every single-valued reference field appears among the root entries,
carrying its depth-1 serialization. -/
theorem ref_mem_rootEntries {fs : List (String × DField)} {n : String}
    {o : Option DInst} (h : (n, DField.ref o) ∈ fs) :
    (n, DEntry.nested (dump_at_depth1 o)) ∈ rootEntries fs := by
  induction fs with
  | nil => cases h
  | cons hd tl ih =>
      obtain ⟨m, f⟩ := hd
      rcases List.mem_cons.mp h with h1 | h2
      · cases h1; simp [rootEntries]
      · cases f with
        | scalar w =>
            simp only [rootEntries]
            exact List.mem_cons_of_mem _ (ih h2)
        | ref o2 =>
            simp only [rootEntries]
            exact List.mem_cons_of_mem _ (ih h2)
        | refList l =>
            simp only [rootEntries]
            exact ih h2

/-- Every scalar field appears among the depth-1 entries. -/
theorem scalar_mem_scalarEntries {fs : List (String × DField)} {m : String}
    {w : Int} (h : (m, DField.scalar w) ∈ fs) :
    (m, DEntry.scalar w) ∈ scalarEntries fs := by
  induction fs with
  | nil => cases h
  | cons hd tl ih =>
      obtain ⟨k, f⟩ := hd
      rcases List.mem_cons.mp h with h1 | h2
      · cases h1; simp [scalarEntries]
      · cases f with
        | scalar u =>
            simp only [scalarEntries]
            exact List.mem_cons_of_mem _ (ih h2)
        | ref o2 =>
            simp only [scalarEntries]
            exact ih h2
        | refList l =>
            simp only [scalarEntries]
            exact ih h2

/-- Every key of the depth-1 entries names a scalar field. -/
theorem key_of_scalarEntries {fs : List (String × DField)} {m : String}
    (h : m ∈ (scalarEntries fs).map Prod.fst) :
    ∃ w, (m, DField.scalar w) ∈ fs := by
  induction fs with
  | nil => simp [scalarEntries] at h
  | cons hd tl ih =>
      obtain ⟨k, f⟩ := hd
      cases f with
      | scalar u =>
          simp only [scalarEntries, List.map_cons, List.mem_cons] at h
          rcases h with h1 | h2
          · exact ⟨u, by rw [h1]; exact List.mem_cons_self _ _⟩
          · obtain ⟨w, hw⟩ := ih h2
            exact ⟨w, List.mem_cons_of_mem _ hw⟩
      | ref o2 =>
          simp only [scalarEntries] at h
          obtain ⟨w, hw⟩ := ih h
          exact ⟨w, List.mem_cons_of_mem _ hw⟩
      | refList l =>
          simp only [scalarEntries] at h
          obtain ⟨w, hw⟩ := ih h
          exact ⟨w, List.mem_cons_of_mem _ hw⟩

/-- Every key the field loop emits (at any depth) names a scalar or a
single-valued reference field — never a reference list. -/
theorem key_of_dump_children {fs : List (String × DField)} {d : Nat} {m : String}
    (h : m ∈ (dump_children fs d).map Prod.fst) :
    (∃ v, (m, DField.scalar v) ∈ fs) ∨ (∃ o, (m, DField.ref o) ∈ fs) := by
  induction fs with
  | nil => simp [dump_children] at h
  | cons hd tl ih =>
      obtain ⟨k, f⟩ := hd
      cases f with
      | scalar u =>
          simp only [dump_children, List.map_cons, List.mem_cons] at h
          rcases h with h1 | h2
          · exact Or.inl ⟨u, by rw [h1]; exact List.mem_cons_self _ _⟩
          · rcases ih h2 with ⟨v, hv⟩ | ⟨o, ho⟩
            · exact Or.inl ⟨v, List.mem_cons_of_mem _ hv⟩
            · exact Or.inr ⟨o, List.mem_cons_of_mem _ ho⟩
      | ref o2 =>
          simp only [dump_children] at h
          rcases hdo : dump_instance o2 (d + 1) with e | out
          · rw [hdo] at h
            rcases ih h with ⟨v, hv⟩ | ⟨o, ho⟩
            · exact Or.inl ⟨v, List.mem_cons_of_mem _ hv⟩
            · exact Or.inr ⟨o, List.mem_cons_of_mem _ ho⟩
          · rw [hdo] at h
            simp only [List.map_cons, List.mem_cons] at h
            rcases h with h1 | h2
            · exact Or.inr ⟨o2, by rw [h1]; exact List.mem_cons_self _ _⟩
            · rcases ih h2 with ⟨v, hv⟩ | ⟨o, ho⟩
              · exact Or.inl ⟨v, List.mem_cons_of_mem _ hv⟩
              · exact Or.inr ⟨o, List.mem_cons_of_mem _ ho⟩
      | refList l =>
          simp only [dump_children] at h
          rcases ih h with ⟨v, hv⟩ | ⟨o, ho⟩
          · exact Or.inl ⟨v, List.mem_cons_of_mem _ hv⟩
          · exact Or.inr ⟨o, List.mem_cons_of_mem _ ho⟩

/-- In a table whose keys are distinct (a Python dict), a key determines
its value. -/
theorem nodupKeys_unique {β : Type} {l : List (String × β)} {m : String} {a b : β}
    (hnd : (l.map Prod.fst).Nodup) (ha : (m, a) ∈ l) (hb : (m, b) ∈ l) : a = b := by
  induction l with
  | nil => cases ha
  | cons hd tl ih =>
      obtain ⟨k, v⟩ := hd
      simp only [List.map_cons, List.nodup_cons] at hnd
      rcases List.mem_cons.mp ha with ha1 | ha2
      · cases ha1
        rcases List.mem_cons.mp hb with hb1 | hb2
        · cases hb1; rfl
        · exact absurd (List.mem_map.mpr ⟨(m, b), hb2, rfl⟩) hnd.1
      · rcases List.mem_cons.mp hb with hb1 | hb2
        · cases hb1
          exact absurd (List.mem_map.mpr ⟨(m, a), ha2, rfl⟩) hnd.1
        · exact ih hnd.2 ha2 hb2

/-- C2: for every instance whose relation graph has depth ≥ 3 and whose
descriptor-driven serialization is in effect (no custom `to_dict` at the
root or its reference children), `dump_instance` at depth 0 returns an
output map rather than raising: every scalar field of the root is present,
every single-valued reference field of the root is present as a nested
map, that nested map carries every scalar field of the referenced
instance, and only the single-valued reference fields at the excess depth
(depth 2, the third hop) are dropped from it. -/
theorem dump_depth3_never_raises (i : DInst)
    (_h3 : hasDepth3 i)
    (hroot : i.toDict = Option.none)
    (hchild : ∀ n j, (n, DField.ref (some j)) ∈ i.fields → j.toDict = Option.none) :
    ∃ out, dump_instance (some i) 0 = Except.ok out ∧
      (∀ n v, (n, DField.scalar v) ∈ i.fields → (n, DEntry.scalar v) ∈ out.entries) ∧
      (∀ n o, (n, DField.ref o) ∈ i.fields →
        ∃ sub, (n, DEntry.nested sub) ∈ out.entries ∧
          ∀ j, o = some j → (j.fields.map Prod.fst).Nodup →
            (∀ m w, (m, DField.scalar w) ∈ j.fields →
              (m, DEntry.scalar w) ∈ sub.entries) ∧
            (∀ m o2, (m, DField.ref o2) ∈ j.fields →
              m ∉ sub.entries.map Prod.fst)) := by
  refine ⟨DOut.mk (rootEntries i.fields), dump_instance_zero i hroot, ?_, ?_⟩
  · intro n v h
    exact scalar_mem_rootEntries h
  · intro n o h
    refine ⟨dump_at_depth1 o, ref_mem_rootEntries h, ?_⟩
    intro j hj hnd
    subst hj
    have hjd : j.toDict = Option.none := hchild n j h
    have hsub : dump_at_depth1 (some j) = DOut.mk (scalarEntries j.fields) := by
      match j with
      | DInst.mk t fs =>
          simp only [DInst.toDict] at hjd
          subst hjd
          simp [dump_at_depth1, DInst.fields]
    rw [hsub]
    constructor
    · intro m w hm
      exact scalar_mem_scalarEntries hm
    · intro m o2 hm hk
      obtain ⟨w, hw⟩ := key_of_scalarEntries hk
      cases nodupKeys_unique hnd hm hw

/-- Leaf instance of the C2 witness graph (no references below it). -/
def c2leaf : DInst := DInst.mk Option.none [("v", DField.scalar 3)]

/-- Second-hop instance of the C2 witness graph. -/
def c2mid2 : DInst :=
  DInst.mk Option.none [("w", DField.scalar 2), ("leaf", DField.ref (some c2leaf))]

/-- First-hop instance of the C2 witness graph. -/
def c2mid : DInst :=
  DInst.mk Option.none [("x", DField.scalar 1), ("mid2", DField.ref (some c2mid2))]

/-- Root of the C2 witness graph: three reference hops below it. -/
def c2root : DInst :=
  DInst.mk Option.none [("y", DField.scalar 0), ("mid", DField.ref (some c2mid))]

/-- Witness for C2: the depth-3 serialization theorem applied to a concrete
three-hop instance graph. -/
theorem dump_depth3_never_raises_witness :
    hasDepth3 c2root ∧ c2root.toDict = Option.none ∧
    (∀ n j, (n, DField.ref (some j)) ∈ c2root.fields → j.toDict = Option.none) ∧
    (∃ out, dump_instance (some c2root) 0 = Except.ok out ∧
      (∀ n v, (n, DField.scalar v) ∈ c2root.fields → (n, DEntry.scalar v) ∈ out.entries) ∧
      (∀ n o, (n, DField.ref o) ∈ c2root.fields →
        ∃ sub, (n, DEntry.nested sub) ∈ out.entries ∧
          ∀ j, o = some j → (j.fields.map Prod.fst).Nodup →
            (∀ m w, (m, DField.scalar w) ∈ j.fields →
              (m, DEntry.scalar w) ∈ sub.entries) ∧
            (∀ m o2, (m, DField.ref o2) ∈ j.fields →
              m ∉ sub.entries.map Prod.fst))) := by
  have h3 : hasDepth3 c2root :=
    ⟨"mid", c2mid, "mid2", c2mid2, "leaf", c2leaf,
      by simp [c2root, DInst.fields], by simp [c2mid, DInst.fields],
      by simp [c2mid2, DInst.fields]⟩
  have hchild : ∀ n j, (n, DField.ref (some j)) ∈ c2root.fields →
      j.toDict = Option.none := by
    intro n j h
    simp only [c2root, DInst.fields, List.mem_cons, List.not_mem_nil, or_false] at h
    rcases h with h1 | h1
    · cases h1
    · cases h1; rfl
  exact ⟨h3, rfl, hchild, dump_depth3_never_raises c2root h3 rfl hchild⟩

/-- C9: for every instance serialized descriptor-driven (no custom
`to_dict` at the root) with distinct field names, and every recursion
depth, whenever `dump_instance` returns an output map, no multi-valued
reference (reference-list) field of the instance's type occurs among the
output keys.  Quantifying over every depth covers the root map and every
nested map alike, since each nested map is exactly the `dump_instance`
output of the referenced instance at the next depth. -/
theorem dump_omits_reference_lists (i : DInst) (d : Nat) (out : DOut)
    (hroot : i.toDict = Option.none)
    (hnd : (i.fields.map Prod.fst).Nodup)
    (hdump : dump_instance (some i) d = Except.ok out)
    (n : String) (l : List DInst) (hn : (n, DField.refList l) ∈ i.fields) :
    n ∉ out.entries.map Prod.fst := by
  intro hk
  have hd1 : ¬ 1 < d := by
    intro hgt
    rw [dump_instance_overflow (some i) d hgt] at hdump
    cases hdump
  have hout : out = DOut.mk (dump_children i.fields d) := by
    match i with
    | DInst.mk t fs =>
        simp only [DInst.toDict] at hroot
        subst hroot
        rw [dump_instance.eq_def] at hdump
        simp only [if_neg hd1] at hdump
        cases hdump
        simp [DInst.fields]
  rw [hout] at hk
  simp only [DOut.entries] at hk
  rcases key_of_dump_children hk with ⟨v, hv⟩ | ⟨o, ho⟩
  · cases nodupKeys_unique hnd hn hv
  · cases nodupKeys_unique hnd hn ho

/-- Instance with a reference-list field, used by the C9 witness: an
author with scalar `id` and multi-valued `books`. -/
def c9author : DInst :=
  DInst.mk Option.none
    [("id", DField.scalar 7), ("books", DField.refList [c2leaf, c2leaf])]

/-- Witness for C9: the reference-list field `books` is absent from the
keys of the serialized output of a concrete instance. -/
theorem dump_omits_reference_lists_witness :
    c9author.toDict = Option.none ∧
    (c9author.fields.map Prod.fst).Nodup ∧
    dump_instance (some c9author) 0 = Except.ok (DOut.mk (rootEntries c9author.fields)) ∧
    (("books", DField.refList [c2leaf, c2leaf]) ∈ c9author.fields) ∧
    "books" ∉ (DOut.mk (rootEntries c9author.fields)).entries.map Prod.fst :=
  ⟨rfl, by simp [c9author, DInst.fields], dump_instance_zero c9author rfl,
    by simp [c9author, DInst.fields],
    dump_omits_reference_lists c9author 0 (DOut.mk (rootEntries c9author.fields))
      rfl (by simp [c9author, DInst.fields]) (dump_instance_zero c9author rfl)
      "books" [c2leaf, c2leaf] (by simp [c9author, DInst.fields])⟩

/-- C10: serializing an absent instance is total and deterministic — for
every depth ≤ 1, `dump_instance` applied to `None` returns the empty map
`{}` rather than raising; consequently a present single-valued reference
field whose value is unset appears in the depth-0 output as the empty
map. -/
theorem dump_none_empty :
    (∀ d : Nat, d ≤ 1 → dump_instance Option.none d = Except.ok (DOut.mk [])) ∧
    (∀ (i : DInst) (n : String) (out : DOut), i.toDict = Option.none →
      (n, DField.ref Option.none) ∈ i.fields →
      dump_instance (some i) 0 = Except.ok out →
      (n, DEntry.nested (DOut.mk [])) ∈ out.entries) := by
  constructor
  · intro d hd
    have hcase : d = 0 ∨ d = 1 := by omega
    rcases hcase with h | h <;> subst h <;> simp [dump_instance]
  · intro i n out hroot hmem hdump
    rw [dump_instance_zero i hroot] at hdump
    cases hdump
    have hm := ref_mem_rootEntries (o := Option.none) hmem
    simpa [DOut.entries, dump_at_depth1] using hm

/-- Instance with an unset single-valued reference, used by the C10
witness. -/
def c10inst : DInst :=
  DInst.mk Option.none [("id", DField.scalar 1), ("owner", DField.ref Option.none)]

/-- Witness for C10: `None` serializes to the empty map at depth 0, and a
concrete unset reference field shows up as `{}` in the output. -/
theorem dump_none_empty_witness :
    ((0 : Nat) ≤ 1 ∧ dump_instance Option.none 0 = Except.ok (DOut.mk [])) ∧
    (c10inst.toDict = Option.none ∧
      ("owner", DField.ref Option.none) ∈ c10inst.fields ∧
      dump_instance (some c10inst) 0 = Except.ok (DOut.mk (rootEntries c10inst.fields)) ∧
      ("owner", DEntry.nested (DOut.mk [])) ∈ (DOut.mk (rootEntries c10inst.fields)).entries) :=
  ⟨⟨by decide, dump_none_empty.1 0 (by decide)⟩,
    rfl, by simp [c10inst, DInst.fields], dump_instance_zero c10inst rfl,
    dump_none_empty.2 c10inst "owner" (DOut.mk (rootEntries c10inst.fields)) rfl
      (by simp [c10inst, DInst.fields]) (dump_instance_zero c10inst rfl)⟩

/-- Python `obj.__class__.__name__`-style class of an optional object
(`None.__class__` is `NoneType`, so `get_parent_model` line 83 does not
raise on an absent instance). -/
def classOf : Option PyVal → String
  | Option.none => "NoneType"
  | some (PyVal.inst c _) => c
  | some _ => "object"

/-- Python `getattr(obj, name)`: attribute lookup, raising
`AttributeError` when the object has no such attribute (in particular on
`None` and non-instance values). -/
def getattrPy (v : PyVal) (name : String) : Except Halt PyVal :=
  match v with
  | PyVal.inst _ attrs =>
      match dictGet attrs name with
      | some x => Except.ok x
      | Option.none => Except.error (Halt.error "AttributeError")
  | _ => Except.error (Halt.error "AttributeError")

/-- Python `setattr(obj, name, value)`: functional update of the attribute
table (instances form a tree here, so in-place mutation is modelled by
writing the updated object back); raises `AttributeError` on `None` and
non-instance values. -/
def setattrPyE (v : PyVal) (name : String) (x : PyVal) : Except Halt PyVal :=
  match v with
  | PyVal.inst c attrs => Except.ok (PyVal.inst c (setKey attrs name x))
  | _ => Except.error (Halt.error "AttributeError")

/-- `SQLAlchemyProvider.get_instance` (sqlalchemy_provider.py lines
213-227): `queryset.filter(id_field == instance_id).first()` over the
backing store keyed by instance id; `None` when nothing matches.  (The
optional `get_instance_queryset` hook is a per-model extension point not
exercised here.) -/
def get_instance (db : List (String × PyVal)) (pk : Option String) : Option PyVal :=
  match pk with
  | Option.none => Option.none
  | some k => dictGet db k

/-- The same id-equality fetch when the id arrives as a request value
(reference resolution in `save_new_instance`/`update_instance`/
`fill_property`): a non-string value matches no row. -/
def getInstanceVal (db : List (String × PyVal)) (v : PyVal) : Option PyVal :=
  match v with
  | PyVal.str k => dictGet db k
  | _ => Option.none

/-- An incoming HTTP request: raw body plus the tornado query-argument
table, as consumed by `ModelRestHandler.get_request_data`. -/
structure Request where
  body : String
  arguments : List (String × String)

/-- Python `urllib.parse.unquote`: percent-decoding is standard-library
behaviour outside this repository; on the percent-free bodies modelled
here it is the identity. -/
def unquote (s : String) : String := s

/-- `ModelRestHandler.get_request_data` (rest_handler.py lines 118-132):
a non-empty body is split on `&` and each item on `=` (a malformed item
raises `ValueError` from tuple unpacking); otherwise the query arguments
are taken, with empty strings mapped to `None`. -/
def get_request_data (req : Request) : Except Halt (List (String × PyVal)) :=
  if req.body ≠ "" then
    (pySplit '&' req.body).foldlM
      (fun data item =>
        match pySplit '=' item with
        | [key, value] => Except.ok (setKey data key (PyVal.str (unquote value)))
        | _ => Except.error (Halt.error "ValueError"))
      ([] : List (String × PyVal))
  else
    Except.ok (req.arguments.map (fun kv =>
      (kv.fst, if kv.snd = "" then PyVal.none else PyVal.str kv.snd)))

/-- Modelled from the spec: `self.get_model(obj, field_name)` of the
composed model handler (the composition in `bzz/model.py` is not under
src/): resolve the ResourceType targeted by the trailing collection
segment (§4.2); modelled as the collection name itself. -/
def get_model (_obj : Option PyVal) (field_name : String) : String := field_name

mutual
/-- Whether `json.dumps` accepts a value: `None`, booleans, strings, ints
and containers of serializable values are fine; an ORM instance (at any
nesting depth) is not JSON-serializable. -/
def jsonSerializable : PyVal → Bool
  | PyVal.none => true
  | PyVal.bool _ => true
  | PyVal.str _ => true
  | PyVal.int _ => true
  | PyVal.dict l => jsonSerializablePairs l
  | PyVal.tuple l => jsonSerializableList l
  | PyVal.inst _ _ => false
termination_by v => sizeOf v

/-- Serializability of a list value, element-wise. -/
def jsonSerializableList : List PyVal → Bool
  | [] => true
  | v :: rest => jsonSerializable v && jsonSerializableList rest
termination_by l => sizeOf l

/-- Serializability of a dict value, entry-wise. -/
def jsonSerializablePairs : List (String × PyVal) → Bool
  | [] => true
  | (_, v) :: rest => jsonSerializable v && jsonSerializablePairs rest
termination_by l => sizeOf l
end

/-- `json.dumps(value)` (ujson or the standard json module): generation of
the wire text is JSON encoding mechanics excluded by §1, so the
serialized value is kept structured; a value that is not
JSON-serializable raises `TypeError`, exactly as `json.dumps` does on an
ORM instance. -/
def jsonDumps (v : PyVal) : Except Halt PyVal :=
  if jsonSerializable v then Except.ok v else Except.error (Halt.error "TypeError")

/-- `ModelRestHandler.dump_object` (rest_handler.py lines 134-135):
`return json.dumps(instance)`. -/
def dump_object (v : PyVal) : Except Halt PyVal :=
  jsonDumps v

/-- `ModelRestHandler.get_parent_model` (rest_handler.py lines 63-90):
drop empty path groups; walk all but the last segment, fetching the first
anchor by id and descending by attribute access afterwards; split the last
segment into field name and optional terminal id, fetching the anchor by
that id when no parent was established (and taking the fetched object's
class as the model); finally fall back to `get_model` when the model is
still unset.  Segment unpacking of a group without exactly one `/` raises
`ValueError`; an empty group list raises `IndexError`. -/
def get_parent_model (db : List (String × PyVal)) (args : List String) :
    Except Halt (Option PyVal × String × Option String × Option String) := do
  let args2 := args.filter (fun a => a != "")
  let obj ← args2.dropLast.foldlM
    (fun obj part =>
      match pySplit '/' part with
      | [property_, property_id] =>
          match obj with
          | Option.none => Except.ok (get_instance db (some property_id))
          | some o => do
              let v ← getattrPy o property_
              Except.ok (some v)
      | _ => Except.error (Halt.error "ValueError"))
    (Option.none : Option PyVal)
  match args2.getLast? with
  | Option.none => Except.error (Halt.error "IndexError")
  | some lastArg =>
      let field_name := lstripSlash lastArg
      if field_name.data.contains '/' then
        match pySplit '/' field_name with
        | [fname, id_] =>
            match obj with
            | Option.none =>
                let o := get_instance db (some id_)
                Except.ok (o, fname, some (classOf o), some id_)
            | some o => do
                let v ← getattrPy o fname
                Except.ok (some v, fname, some (get_model (some v) fname), some id_)
        | _ => Except.error (Halt.error "ValueError")
      else
        Except.ok (obj, field_name, some (get_model obj field_name), Option.none)

/-- `handler.write_json(obj)` (rest_handler.py lines 29-31): set the
content-type header and write the value (JSON text encoding is wire
mechanics excluded by §1, so the structured value is recorded). -/
def writeJson (s : HandlerState) (v : PyVal) : HandlerState :=
  {s with headers := setKey s.headers "Content-Type" "application/json",
          written := s.written ++ [v]}

/-- `handler.send_error(status_code)`: set the error status and finish the
request. -/
def sendError (s : HandlerState) (code : Nat) : HandlerState :=
  {s with status := code, finished := true}

/-- `handler.finish()`. -/
def finishHandler (s : HandlerState) : HandlerState :=
  {s with finished := true}

/-- `ModelRestHandler.list` (rest_handler.py lines 109-116): fetch the
first page with the provider defaults (`page=1`, `per_page=20`, no
filters), run each item through `dump_object` (whose `TypeError`
propagates), and write the list. -/
def handlerList (s : HandlerState) : Except Halt HandlerState := do
  let items := get_list (s.db.map Prod.snd) 1 20 []
  let dump ← items.foldlM
    (fun acc item => do
      let d ← dump_object item
      Except.ok (acc ++ [d]))
    ([] : List PyVal)
  Except.ok (writeJson s (PyVal.tuple dump))

/-- `ModelRestHandler.get` (rest_handler.py lines 33-46): resolve the
path; no terminal id delegates to the list; an absent instance sends a
404; otherwise `dump_object(obj)` is written and the request finished —
with `dump_object`'s `TypeError` propagating uncaught. -/
def handlerGet (args : List String) (s : HandlerState) : Except Halt HandlerState := do
  let (obj, _field_name, _model, pk) ← get_parent_model s.db args
  match pk with
  | Option.none => handlerList s
  | some _ =>
      match obj with
      | Option.none => Except.ok (sendError s 404)
      | some o => do
          let d ← dump_object o
          Except.ok (finishHandler (writeJson s d))

/-- `SQLAlchemyProvider.delete_instance` (sqlalchemy_provider.py lines
205-211): fetch by id; when present, `db.delete` the fetched row and
commit; return the fetched instance (or `None`). -/
def delete_instance (db : List (String × PyVal)) (pk : Option String) :
    List (String × PyVal) × Option PyVal :=
  match pk with
  | Option.none => (db, Option.none)
  | some k =>
      match dictGet db k with
      | Option.none => (db, Option.none)
      | some inst => (removeKey db k, some inst)

/-- `ModelRestHandler.delete` (rest_handler.py lines 99-107): resolve the
terminal id, `delete_instance`; a truthy result emits the
`post_delete_instance` signal and writes "OK", otherwise "FAIL" is
written. -/
def handlerDelete (args : List String) (s : HandlerState) :
    Except Halt HandlerState := do
  let (_obj, _field_name, _model, pk) ← get_parent_model s.db args
  let (db2, inst0) := delete_instance s.db pk
  let s2 := {s with db := db2}
  if (match inst0 with | some i => pyTruthy i | Option.none => false) then
    Except.ok {s2 with signals := s2.signals ++ ["post_delete_instance"],
                       written := s2.written ++ [PyVal.str "OK"]}
  else
    Except.ok {s2 with written := s2.written ++ [PyVal.str "FAIL"]}

/-- One field of a SQLAlchemy model as `get_model_fields` reports it: a
plain column, or a relationship (`RelationshipProperty`) with its target
model and `uselist` flag. -/
inductive FKind : Type where
  | column : FKind
  | rel : String → Bool → FKind
deriving DecidableEq

/-- The field table of the model under request
(`SQLAlchemyProvider.get_model_fields`: columns joined with
relationships). -/
structure Schema where
  fields : List (String × FKind)

/-- `SQLAlchemyProvider.is_reference_field` (line 91-93):
`isinstance(field, RelationshipProperty)`; `None` (an unknown key) is not
a reference. -/
def is_reference_field : Option FKind → Bool
  | some (FKind.rel _ _) => true
  | _ => false

/-- `SQLAlchemyProvider.is_list_field` (lines 84-89): a relationship with
`uselist` set. -/
def is_list_field : Option FKind → Bool
  | some (FKind.rel _ u) => u
  | _ => false

/-- `SQLAlchemyProvider.fill_property` (sqlalchemy_provider.py lines
122-163), structured over the dot-split key pieces: the source recursion
re-splits `property_name = '.'.join(parts[1:])`, and since split pieces
contain no dot this is exactly recursion on the tail of the pieces, and
`'.' not in property_name` is exactly `parts[1:]` having at most one
piece.  Terminal step: optionally record the change (`to` stringified),
then either append fetched children to a multi-valued relation or set the
property on the nested object; deeper keys recurse on the child without
recording changes (the source passes no `updated_fields` down), with the
in-place mutation of the shared child modelled by writing it back. -/
def fillParts (schema : Schema) (db : List (String × PyVal)) :
    PyVal → List String → PyVal → Option (List (String × PyVal)) →
    Except Halt (PyVal × Option (List (String × PyVal)))
  | _inst, [], _value, _uf => Except.error (Halt.error "IndexError")
  | inst, fpart :: rest, value, uf => do
      let multiple := endsWithBrackets fpart
      let field_name := if multiple then stripBrackets fpart else fpart
      if rest.length ≤ 1 then do
        let property_name := rest.headD ""
        let uf2 ← match uf with
          | Option.none => Except.ok (Option.none : Option (List (String × PyVal)))
          | some u => do
              let oldv ← getattrPy inst field_name
              Except.ok (some (setKey u field_name
                (PyVal.dict [("from", oldv), ("to", PyVal.str (pyStr value))])))
        let field := dictGet schema.fields field_name
        if multiple && is_list_field field then do
          let values := match value with
            | PyVal.tuple l => l
            | v => [v]
          let list_property ← getattrPy inst field_name
          match list_property with
          | PyVal.tuple l =>
              let children := values.map (fun item => (getInstanceVal db item).getD PyVal.none)
              let inst2 ← setattrPyE inst field_name (PyVal.tuple (l ++ children))
              Except.ok (inst2, uf2)
          | _ => Except.error (Halt.error "AttributeError")
        else do
          let nested ← getattrPy inst field_name
          let nested2 ← setattrPyE nested property_name value
          let inst2 ← setattrPyE inst field_name nested2
          Except.ok (inst2, uf2)
      else do
        let child ← getattrPy inst field_name
        let cres ← fillParts schema db child rest value Option.none
        let inst2 ← setattrPyE inst field_name cres.fst
        Except.ok (inst2, uf)

/-- `fill_property` proper: split the key on dots and process the
pieces. -/
def fill_property (schema : Schema) (db : List (String × PyVal)) (inst : PyVal)
    (key : String) (value : PyVal) (uf : Option (List (String × PyVal))) :
    Except Halt (PyVal × Option (List (String × PyVal))) :=
  fillParts schema db inst (pySplit '.' key) value uf

/-- `SQLAlchemyProvider.update_instance` (sqlalchemy_provider.py lines
165-196).  Note two facts proved about it below: the `_data` argument is
ignored — the source re-reads `self.get_request_data()` — and the result
is the *triple* `(None, instance, updated_fields)` (returned as the
Python tuple it is).  `save_instance` (flush/commit) persists the mutated
instance into its row. -/
def update_instance (schema : Schema) (db : List (String × PyVal)) (req : Request)
    (pk : Option String) (_data : List (String × PyVal)) :
    Except Halt (List (String × PyVal) × PyVal) := do
  let instance0 := (get_instance db pk).getD PyVal.none
  let data ← get_request_data req
  let acc ← data.foldlM
    (fun (acc : PyVal × List (String × PyVal)) (kv : String × PyVal) => do
      let (inst, uf) := acc
      let (field_name, value) := kv
      if field_name.data.contains '.' then do
        let fres ← fill_property schema db inst field_name value (some uf)
        Except.ok (fres.fst, fres.snd.getD uf)
      else do
        let field := dictGet schema.fields field_name
        let value2 := if is_reference_field field
          then (getInstanceVal db value).getD PyVal.none else value
        let oldv ← getattrPy inst field_name
        let uf2 := setKey uf field_name (PyVal.dict [("from", oldv), ("to", value2)])
        let inst2 ← setattrPyE inst field_name value2
        Except.ok (inst2, uf2))
    (instance0, ([] : List (String × PyVal)))
  let db2 := match pk with
    | some k => if (dictGet db k).isSome then setKey db k acc.fst else db
    | Option.none => db
  Except.ok (db2, PyVal.tuple [PyVal.none, acc.fst, PyVal.dict acc.snd])

/-- Python tuple unpacking `a, b = value`: exactly two elements, else
`ValueError` (too many/few values to unpack) or `TypeError` for a
non-iterable. -/
def unpack2 (v : PyVal) : Except Halt (PyVal × PyVal) :=
  match v with
  | PyVal.tuple [a, b] => Except.ok (a, b)
  | PyVal.tuple _ => Except.error (Halt.error "ValueError")
  | _ => Except.error (Halt.error "TypeError")

/-- `ModelRestHandler.put` (rest_handler.py lines 92-97): resolve the
terminal id, call `update_instance(pk, self.get_request_data())`, unpack
the result into `instance, updated`, emit the `post_update_instance`
signal, and write "OK". -/
def handlerPut (schema : Schema) (req : Request) (args : List String)
    (s : HandlerState) : Except Halt HandlerState := do
  let (_obj, _field_name, _model, pk) ← get_parent_model s.db args
  let data ← get_request_data req
  let (db2, result) ← update_instance schema s.db req pk data
  let _iu ← unpack2 result
  let s2 := {s with db := db2, signals := s.signals ++ ["post_update_instance"]}
  Except.ok {s2 with written := s2.written ++ [PyVal.str "OK"]}

/-- Reduction of `Except.ok` through monadic bind. -/
theorem ok_bind {ε α β : Type} (a : α) (f : α → Except ε β) :
    (Except.ok (ε := ε) a >>= f) = f a := rfl

/-- Reduction of `Except.error` through monadic bind. -/
theorem error_bind {ε α β : Type} (e : ε) (f : α → Except ε β) :
    (Except.error (α := α) e >>= f) = Except.error e := rfl

/-- `delete_instance` on an id that is present in the store. -/
theorem delete_instance_found (db : List (String × PyVal)) (pk : String)
    (inst0 : PyVal) (h : dictGet db pk = some inst0) :
    delete_instance db (some pk) = (removeKey db pk, some inst0) := by
  simp [delete_instance, h]

/-- `delete_instance` on an id that is absent from the store. -/
theorem delete_instance_missing (db : List (String × PyVal)) (pk : String)
    (h : dictGet db pk = Option.none) :
    delete_instance db (some pk) = (db, Option.none) := by
  simp [delete_instance, h]

/-- Path resolution for a single path group `"collection/id"`: no parent
walk happens, the instance is fetched by the terminal id and its class
taken as the model. -/
theorem get_parent_model_single (db : List (String × PyVal)) (arg name pkid : String)
    (harg : arg ≠ "")
    (hcont : (lstripSlash arg).data.contains '/' = true)
    (hsplit : pySplit '/' (lstripSlash arg) = [name, pkid]) :
    get_parent_model db [arg] =
      Except.ok (get_instance db (some pkid), name,
        some (classOf (get_instance db (some pkid))), some pkid) := by
  have hbne : (arg != "") = true := by
    simp [bne_iff_ne, harg]
  have hfilter : List.filter (fun a => a != "") [arg] = [arg] := by
    simp [List.filter, hbne]
  simp only [get_parent_model, hfilter, List.dropLast_single, List.foldlM_nil,
    List.getLast?_singleton, pure_bind, hcont, if_true, hsplit]

/-- Store with one instance, used by the C4 evaluation and the C8
witness. -/
def c4db : List (String × PyVal) :=
  [("1", PyVal.inst "User" [("id", PyVal.str "1"), ("name", PyVal.str "Ana")])]

/-- Request state over that store, used by the C4 evaluation and the C8
witness. -/
def c4state : HandlerState := { db := c4db }

/-- C4: evaluation of terminal-id GET dispatch at a concrete store.  The
absent side behaves as the claim states: `GET User/9` produces the 404
outcome with no uncaught error.  The present side refutes the claim's
second half on this code: `ModelRestHandler.dump_object` is
`json.dumps(instance)` (rest_handler.py lines 134-135), and an ORM
instance is not JSON-serializable, so `GET User/1` dies with an uncaught
`TypeError` instead of writing the serialized instance and finishing —
even though serialize-and-finish is the documented design (§4.4-§4.5) and
the provider's own `dump_instance`/`dump_list` exist for exactly that but
are never called by the handler. -/
theorem get_terminal_id_present_typeerror :
    handlerGet ["User/9"] c4state = Except.ok (sendError c4state 404) ∧
    handlerGet ["User/1"] c4state = Except.error (Halt.error "TypeError") := by
  constructor
  · rfl
  · have hg := get_parent_model_single c4state.db "User/1" "User" "1"
      (by decide) rfl rfl
    have hgi : get_instance c4state.db (some "1") =
        some (PyVal.inst "User" [("id", PyVal.str "1"), ("name", PyVal.str "Ana")]) := rfl
    rw [hgi] at hg
    simp only [handlerGet, hg, ok_bind]
    simp [dump_object, jsonDumps, jsonSerializable, jsonSerializablePairs,
      jsonSerializableList, error_bind]

/-- C8: for every DELETE request with a terminal id, a found instance
leads to exactly one `post_delete_instance` notification, the "OK" success
marker, and removal of the row; an absent id leads to the "FAIL" marker
with no notification and no raised error. -/
theorem delete_terminal_id_dispatch (arg name pkid : String) (s : HandlerState)
    (harg : arg ≠ "")
    (hcont : (lstripSlash arg).data.contains '/' = true)
    (hsplit : pySplit '/' (lstripSlash arg) = [name, pkid]) :
    (∀ inst0, dictGet s.db pkid = some inst0 → pyTruthy inst0 = true →
      handlerDelete [arg] s =
        Except.ok {s with db := removeKey s.db pkid, signals := s.signals ++ ["post_delete_instance"], written := s.written ++ [PyVal.str "OK"]}) ∧
    (dictGet s.db pkid = Option.none →
      handlerDelete [arg] s =
        Except.ok {s with written := s.written ++ [PyVal.str "FAIL"]}) := by
  have hg := get_parent_model_single s.db arg name pkid harg hcont hsplit
  constructor
  · intro inst0 hfound htruthy
    have hgi : get_instance s.db (some pkid) = some inst0 := by
      simp [get_instance, hfound]
    rw [hgi] at hg
    simp only [handlerDelete, hg, ok_bind, delete_instance_found s.db pkid inst0 hfound,
      htruthy, if_true]
  · intro habs
    have hgi : get_instance s.db (some pkid) = Option.none := by
      simp [get_instance, habs]
    rw [hgi] at hg
    simp only [handlerDelete, hg, ok_bind, delete_instance_missing s.db pkid habs,
      Bool.false_eq_true, if_false]

/-- Witness for C8: deleting present id "1" emits one notification and
"OK"; deleting absent id "9" writes "FAIL" without a notification. -/
theorem delete_terminal_id_dispatch_witness :
    ("User/1" : String) ≠ "" ∧
    (lstripSlash "User/1").data.contains '/' = true ∧
    pySplit '/' (lstripSlash "User/1") = ["User", "1"] ∧
    ((∀ inst0, dictGet c4state.db "1" = some inst0 → pyTruthy inst0 = true →
      handlerDelete ["User/1"] c4state =
        Except.ok {c4state with db := removeKey c4state.db "1", signals := c4state.signals ++ ["post_delete_instance"], written := c4state.written ++ [PyVal.str "OK"]}) ∧
    (dictGet c4state.db "1" = Option.none →
      handlerDelete ["User/1"] c4state =
        Except.ok {c4state with written := c4state.written ++ [PyVal.str "FAIL"]})) :=
  ⟨by decide, rfl, rfl,
    delete_terminal_id_dispatch "User/1" "User" "1" c4state (by decide) rfl rfl⟩

/-- Store with one instance, used by the C3 evaluation. -/
def c3db : List (String × PyVal) :=
  [("1", PyVal.inst "User" [("id", PyVal.str "1"), ("name", PyVal.str "Bernardo")])]

/-- Schema of the C3 model: scalar columns `id` and `name`. -/
def c3schema : Schema := ⟨[("id", FKind.column), ("name", FKind.column)]⟩

/-- The PUT request of the C3 evaluation: form body `name=Maria`. -/
def c3req : Request := ⟨"name=Maria", []⟩

/-- Request state over the C3 store. -/
def c3state : HandlerState := { db := c3db }

/-- C3: evaluation of the update path at a concrete existing instance and
request data.  `update_instance` does apply the request data and records
`changed_fields = {name: {from, to}}`, but it returns the *triple*
`(None, instance, updated_fields)` (and ignores its `data` argument in
favour of re-reading the request); `ModelRestHandler.put` unpacks that
result into two variables, so the PUT request dies with `ValueError`
instead of responding success — the pair-returning contract the claim
states does not hold on this code. -/
theorem update_instance_triple_breaks_put :
    update_instance c3schema c3db c3req (some "1") [("name", PyVal.str "Maria")] =
      Except.ok ([("1", PyVal.inst "User" [("id", PyVal.str "1"), ("name", PyVal.str "Maria")])],
        PyVal.tuple [PyVal.none,
          PyVal.inst "User" [("id", PyVal.str "1"), ("name", PyVal.str "Maria")],
          PyVal.dict [("name", PyVal.dict [("from", PyVal.str "Bernardo"), ("to", PyVal.str "Maria")])]]) ∧
    handlerPut c3schema c3req ["User/1"] c3state = Except.error (Halt.error "ValueError") :=
  ⟨rfl, rfl⟩

end Bzz

